import Mathlib

/-!
Shallow embedding of the WebGL exoplanet renderer (src/webgl3d.js):
camera damping and controls, sphere mesh generation, the minimal
matrix library, and the temperature-to-color step functions, together
with proofs of the specification's testable properties.
-/

namespace WebGL3D

/-! ## Camera controls (constructor defaults and `updateCamera`) -/

/-- `damping: 0.1` from the `cameraControls` initializer. -/
noncomputable def damping : ℝ := 1/10

/-- `minDistance: 3` from the `cameraControls` initializer. -/
noncomputable def minDistance : ℝ := 3

/-- `maxDistance: 40` from the `cameraControls` initializer. -/
noncomputable def maxDistance : ℝ := 40

/-- One damping step of `updateCamera`:
`current += (target - current) * damping`. -/
noncomputable def dampStep (target current : ℝ) : ℝ :=
  current + (target - current) * damping

/-- `n` repeated damping steps against a fixed target. -/
noncomputable def dampIter (target current : ℝ) : ℕ → ℝ
  | 0 => current
  | n + 1 => dampStep target (dampIter target current n)

/-- The clamp applied to `targetDistance` in the wheel handler:
`Math.max(minDistance, Math.min(maxDistance, d))`. -/
noncomputable def clampDistance (d : ℝ) : ℝ :=
  max minDistance (min maxDistance d)

/-- `const delta = e.deltaY > 0 ? 1 : -1` in the wheel handler. -/
noncomputable def wheelDelta (deltaY : ℝ) : ℝ :=
  if deltaY > 0 then 1 else -1

/-- The wheel handler's update of `targetDistance`:
multiply by `(1 + delta * zoomSpeed)` with `zoomSpeed = 0.1`, then clamp. -/
noncomputable def wheelTargetUpdate (deltaY d : ℝ) : ℝ :=
  clampDistance (d * (1 + wheelDelta deltaY * (1/10)))

/-- The spec's reading of the wheel handler, with the mathematical sign
function: multiply the target distance by `(1 + sign(deltaY) * 0.1)`,
then clamp.  Kept separate from `wheelTargetUpdate` (the code) so the two
can be compared. -/
noncomputable def wheelTargetUpdateSpec (deltaY d : ℝ) : ℝ :=
  clampDistance (d * (1 + Real.sign deltaY * (1/10)))

/-! ## Camera state machine (`setupControls`, `updateCamera`) -/

/-- The mutable `cameraControls` fields that the input handlers and the
per-frame update touch. -/
structure CameraState where
  distance : ℝ
  azimuth : ℝ
  elevation : ℝ
  targetAzimuth : ℝ
  targetElevation : ℝ
  targetDistance : ℝ
  autoRotate : Bool

/-- The `cameraControls` initializer from the constructor. -/
noncomputable def initCamera : CameraState :=
  { distance := 12
    azimuth := 0
    elevation := 0.3
    targetAzimuth := 0
    targetElevation := 0.3
    targetDistance := 12
    autoRotate := true }

/-- `mousedown` handler: disables auto-rotation (mouse-capture fields are
not part of the camera state). -/
noncomputable def mousedownEvt (s : CameraState) : CameraState :=
  { s with autoRotate := false }

/-- `mousemove` handler while dragging: pixel deltas scaled by the fixed
sensitivity `0.005` move the azimuth/elevation targets. -/
noncomputable def mousemoveEvt (dx dy : ℝ) (s : CameraState) : CameraState :=
  { s with
    targetAzimuth := s.targetAzimuth - dx * 0.005
    targetElevation := s.targetElevation + dy * 0.005 }

/-- `wheel` handler: rescale and clamp `targetDistance`, disable
auto-rotation. -/
noncomputable def wheelEvt (deltaY : ℝ) (s : CameraState) : CameraState :=
  { s with
    targetDistance := wheelTargetUpdate deltaY s.targetDistance
    autoRotate := false }

/-- `dblclick` handler: reset the three targets and re-enable
auto-rotation. -/
noncomputable def dblclickEvt (s : CameraState) : CameraState :=
  { s with
    targetDistance := 12
    targetAzimuth := 0
    targetElevation := 0.3
    autoRotate := true }

/-- One `updateCamera` call at elapsed time `t`: damp the three current
values toward their targets, then, when auto-rotation is on, retarget
azimuth and elevation from the clock. -/
noncomputable def frameEvt (t : ℝ) (s : CameraState) : CameraState :=
  let s1 : CameraState :=
    { s with
      azimuth := dampStep s.targetAzimuth s.azimuth
      elevation := dampStep s.targetElevation s.elevation
      distance := dampStep s.targetDistance s.distance }
  if s1.autoRotate then
    { s1 with
      targetAzimuth := t * 0.15 * 2
      targetElevation := 0.3 + Real.sin (t * 0.1) * 0.15 }
  else s1

/-- The user/frame events that can reach the camera state. -/
inductive CamEvt where
  | mousedown : CamEvt
  | mousemove (dx dy : ℝ) : CamEvt
  | wheel (deltaY : ℝ) : CamEvt
  | dblclick : CamEvt
  | frame (t : ℝ) : CamEvt

/-- Apply one event to the camera state. -/
noncomputable def applyEvt (e : CamEvt) (s : CameraState) : CameraState :=
  match e with
  | .mousedown => mousedownEvt s
  | .mousemove dx dy => mousemoveEvt dx dy s
  | .wheel deltaY => wheelEvt deltaY s
  | .dblclick => dblclickEvt s
  | .frame t => frameEvt t s

/-- Apply a sequence of events in order. -/
noncomputable def applyEvts (es : List CamEvt) (s : CameraState) : CameraState :=
  match es with
  | [] => s
  | e :: rest => applyEvts rest (applyEvt e s)

/-! ## Temperature-to-color step functions -/

/-- `getStarColor(teff)`: nested strict comparisons, descending. -/
def getStarColor (teff : ℚ) : ℚ × ℚ × ℚ :=
  if teff > 6000 then (1, 1, 1)
  else if teff > 5000 then (1, 1, 0.7)
  else if teff > 4000 then (1, 0.6, 0.3)
  else if teff > 3000 then (1, 0.3, 0.3)
  else (0.8, 0.2, 0.2)

/-- `getPlanetColor(eqTemp)`: nested strict comparisons, descending. -/
def getPlanetColor (eqTemp : ℚ) : ℚ × ℚ × ℚ :=
  if eqTemp > 1000 then (1, 0.4, 0.4)
  else if eqTemp > 500 then (1, 0.6, 0.3)
  else if eqTemp > 273 then (0.4, 0.6, 1.0)
  else if eqTemp > 200 then (0.6, 0.6, 1.0)
  else (0.7, 0.7, 0.7)

/-- First-match-wins lookup in a descending threshold table with STRICT
(exclusive) lower bounds: the first row whose threshold the temperature
strictly exceeds wins. -/
def stepLookupStrict (table : List (ℚ × (ℚ × ℚ × ℚ))) (dflt : ℚ × ℚ × ℚ)
    (t : ℚ) : ℚ × ℚ × ℚ :=
  match table with
  | [] => dflt
  | (th, c) :: rest => if t > th then c else stepLookupStrict rest dflt t

/-- First-match-wins lookup in a descending threshold table with
INCLUSIVE lower bounds, as the spec's prose describes the step tables. -/
def stepLookupIncl (table : List (ℚ × (ℚ × ℚ × ℚ))) (dflt : ℚ × ℚ × ℚ)
    (t : ℚ) : ℚ × ℚ × ℚ :=
  match table with
  | [] => dflt
  | (th, c) :: rest => if t ≥ th then c else stepLookupIncl rest dflt t

/-- The spec's star-temperature table, descending. -/
def starTable : List (ℚ × (ℚ × ℚ × ℚ)) :=
  [(6000, (1, 1, 1)), (5000, (1, 1, 0.7)), (4000, (1, 0.6, 0.3)),
   (3000, (1, 0.3, 0.3))]

/-- The spec's star-table fallback color. -/
def starDefault : ℚ × ℚ × ℚ := (0.8, 0.2, 0.2)

/-- The spec's planet-temperature table, descending. -/
def planetTable : List (ℚ × (ℚ × ℚ × ℚ)) :=
  [(1000, (1, 0.4, 0.4)), (500, (1, 0.6, 0.3)), (273, (0.4, 0.6, 1.0)),
   (200, (0.6, 0.6, 1.0))]

/-- The spec's planet-table fallback color. -/
def planetDefault : ℚ × ℚ × ℚ := (0.7, 0.7, 0.7)

/-! ## Sphere mesh generation (`createSphere`) -/

/-- The vertex positions emitted by `createSphere(radius, segments, rings)`,
one triple per (ring, segment) pair, in emission order. -/
noncomputable def sphereVertices (radius : ℝ) (segments rings : ℕ) :
    List (ℝ × ℝ × ℝ) :=
  (List.range (rings + 1)).flatMap fun i =>
    (List.range (segments + 1)).map fun (j : ℕ) =>
      let lat := Real.pi * (-(1/2) + (i : ℝ) / (rings : ℝ))
      let z := Real.sin lat
      let zr := Real.cos lat
      let lng := 2 * Real.pi * ((j : ℝ) / (segments : ℝ))
      let x := Real.cos lng * zr
      let y := Real.sin lng * zr
      (x * radius, z * radius, y * radius)

/-- The triangle indices emitted by `createSphere`: two triangles per
(ring, segment) quad, in emission order. -/
def sphereIndices (segments rings : ℕ) : List ℕ :=
  (List.range rings).flatMap fun i =>
    (List.range segments).flatMap fun j =>
      let first := i * (segments + 1) + j
      let second := first + segments + 1
      [first, second, first + 1, second, second + 1, first + 1]

/-! ## Planet drawing (`drawPlanet`) -/

/-- The JS `(value || default)` guard on an optional numeric field of the
planet record: a missing or zero value falls back to the default. -/
noncomputable def orDefault (v : Option ℝ) (d : ℝ) : ℝ :=
  match v with
  | none => d
  | some x => if x = 0 then d else x

/-- `this.orbitSpeed = 10` from the constructor. -/
noncomputable def orbitSpeed : ℝ := 10

/-- `drawPlanet` orbit radius:
`Math.max(3.0, Math.min(7, (planet.a_over_rstar || 10) * 0.2))`. -/
noncomputable def orbitRadius (aOverRstar : Option ℝ) : ℝ :=
  max 3 (min 7 (orDefault aOverRstar 10 * 0.2))

/-- `drawPlanet` orbital angle:
`this.time * this.orbitSpeed / (planet.period_days || 1)`. -/
noncomputable def orbitAngle (time : ℝ) (periodDays : Option ℝ) : ℝ :=
  time * orbitSpeed / orDefault periodDays 1

/-- `drawPlanet` planet center `(planetX, planetY, planetZ)`:
`(cos(angle) * orbitRadius, 0, sin(angle) * orbitRadius)`. -/
noncomputable def planetPosition (time : ℝ) (periodDays aOverRstar : Option ℝ) :
    ℝ × ℝ × ℝ :=
  (Real.cos (orbitAngle time periodDays) * orbitRadius aOverRstar, 0,
   Real.sin (orbitAngle time periodDays) * orbitRadius aOverRstar)

/-! ## Matrix library (`mat4`, `mat3`) -/

/-- A 3-component vector. -/
@[ext]
structure Vec3 where
  x : ℝ
  y : ℝ
  z : ℝ

/-- Component-wise subtraction. -/
noncomputable def v3sub (a b : Vec3) : Vec3 :=
  ⟨a.x - b.x, a.y - b.y, a.z - b.z⟩

/-- Dot product. -/
noncomputable def v3dot (a b : Vec3) : ℝ :=
  a.x * b.x + a.y * b.y + a.z * b.z

/-- Cross product, in the component order the `lookAt` code spells out. -/
noncomputable def v3cross (a b : Vec3) : Vec3 :=
  ⟨a.y * b.z - a.z * b.y, a.z * b.x - a.x * b.z, a.x * b.y - a.y * b.x⟩

/-- The basis vector `z` built by `mat4.lookAt`: the eye-minus-center
difference scaled by `1 / sqrt(z0² + z1² + z2²)`. -/
noncomputable def lookAtZ (eye center : Vec3) : Vec3 :=
  let d := v3sub eye center
  let len := 1 / Real.sqrt (v3dot d d)
  ⟨d.x * len, d.y * len, d.z * len⟩

/-- The basis vector `x` built by `mat4.lookAt`: `cross(up, z)`,
normalized, or zero when the cross product vanishes. -/
noncomputable def lookAtX (eye center up : Vec3) : Vec3 :=
  let c := v3cross up (lookAtZ eye center)
  let len := Real.sqrt (v3dot c c)
  if len = 0 then ⟨0, 0, 0⟩
  else ⟨c.x * (1 / len), c.y * (1 / len), c.z * (1 / len)⟩

/-- The basis vector `y` built by `mat4.lookAt`: `cross(z, x)`,
unnormalized. -/
noncomputable def lookAtY (eye center up : Vec3) : Vec3 :=
  v3cross (lookAtZ eye center) (lookAtX eye center up)

/-- A 4×4 matrix as the flat 16-entry column-major buffer the code
uses: entry at row `r`, column `c` is field `m(4c + r)`. -/
structure Mat4 where
  m0 : ℝ
  m1 : ℝ
  m2 : ℝ
  m3 : ℝ
  m4 : ℝ
  m5 : ℝ
  m6 : ℝ
  m7 : ℝ
  m8 : ℝ
  m9 : ℝ
  m10 : ℝ
  m11 : ℝ
  m12 : ℝ
  m13 : ℝ
  m14 : ℝ
  m15 : ℝ

/-- A 4-component (homogeneous clip-space) vector. -/
structure Vec4 where
  x : ℝ
  y : ℝ
  z : ℝ
  w : ℝ

/-- Multiply a column-major `Mat4` by a column vector. -/
noncomputable def mat4Apply (m : Mat4) (v : Vec4) : Vec4 :=
  ⟨m.m0 * v.x + m.m4 * v.y + m.m8 * v.z + m.m12 * v.w,
   m.m1 * v.x + m.m5 * v.y + m.m9 * v.z + m.m13 * v.w,
   m.m2 * v.x + m.m6 * v.y + m.m10 * v.z + m.m14 * v.w,
   m.m3 * v.x + m.m7 * v.y + m.m11 * v.z + m.m15 * v.w⟩

/-- `mat4.identity`. -/
noncomputable def mat4Identity : Mat4 :=
  ⟨1, 0, 0, 0, 0, 1, 0, 0, 0, 0, 1, 0, 0, 0, 0, 1⟩

/-- `mat4.perspective(out, fovy, aspect, near, far)` with
`f = 1 / tan(fovy / 2)`. -/
noncomputable def mat4Perspective (fovy aspect near far : ℝ) : Mat4 :=
  let f := 1 / Real.tan (fovy / 2)
  ⟨f / aspect, 0, 0, 0,
   0, f, 0, 0,
   0, 0, (far + near) / (near - far), -1,
   0, 0, 2 * far * near / (near - far), 0⟩

/-- A 3×3 matrix with mathematical row/column indexing:
`eRC` is the entry at row `R`, column `C`. -/
@[ext]
structure Mat3 where
  e00 : ℝ
  e01 : ℝ
  e02 : ℝ
  e10 : ℝ
  e11 : ℝ
  e12 : ℝ
  e20 : ℝ
  e21 : ℝ
  e22 : ℝ

/-- The upper-left 3×3 block of a column-major `Mat4`. -/
noncomputable def upperLeft3 (m : Mat4) : Mat3 :=
  ⟨m.m0, m.m4, m.m8,
   m.m1, m.m5, m.m9,
   m.m2, m.m6, m.m10⟩

/-- 3×3 matrix product. -/
noncomputable def mat3Mul (a b : Mat3) : Mat3 :=
  ⟨a.e00 * b.e00 + a.e01 * b.e10 + a.e02 * b.e20,
   a.e00 * b.e01 + a.e01 * b.e11 + a.e02 * b.e21,
   a.e00 * b.e02 + a.e01 * b.e12 + a.e02 * b.e22,
   a.e10 * b.e00 + a.e11 * b.e10 + a.e12 * b.e20,
   a.e10 * b.e01 + a.e11 * b.e11 + a.e12 * b.e21,
   a.e10 * b.e02 + a.e11 * b.e12 + a.e12 * b.e22,
   a.e20 * b.e00 + a.e21 * b.e10 + a.e22 * b.e20,
   a.e20 * b.e01 + a.e21 * b.e11 + a.e22 * b.e21,
   a.e20 * b.e02 + a.e21 * b.e12 + a.e22 * b.e22⟩

/-- 3×3 identity matrix. -/
noncomputable def mat3Identity : Mat3 :=
  ⟨1, 0, 0, 0, 1, 0, 0, 0, 1⟩

/-- 3×3 transpose. -/
noncomputable def mat3Transpose (a : Mat3) : Mat3 :=
  ⟨a.e00, a.e10, a.e20,
   a.e01, a.e11, a.e21,
   a.e02, a.e12, a.e22⟩

/-- 3×3 determinant. -/
noncomputable def mat3Det (a : Mat3) : ℝ :=
  a.e00 * (a.e11 * a.e22 - a.e12 * a.e21)
    - a.e01 * (a.e10 * a.e22 - a.e12 * a.e20)
    + a.e02 * (a.e10 * a.e21 - a.e11 * a.e20)

/-- `mat3.normalFromMat4(out, a)`: reads the nine upper-left entries of
the column-major 4×4 buffer as `aIJ = a[4*I + J]`, computes the cofactor
expressions and the determinant exactly as the code writes them, returns
`none` (the code's `null`, with the output buffer untouched) when the
determinant is zero, and otherwise the nine output entries, read back
here from the column-major output buffer (`out[3c + r]` is row `r`,
column `c`). -/
noncomputable def normalFromMat4 (m : Mat4) : Option Mat3 :=
  let a00 := m.m0
  let a01 := m.m1
  let a02 := m.m2
  let a10 := m.m4
  let a11 := m.m5
  let a12 := m.m6
  let a20 := m.m8
  let a21 := m.m9
  let a22 := m.m10
  let b01 := a22 * a11 - a12 * a21
  let b11 := -a22 * a10 + a12 * a20
  let b21 := a21 * a10 - a11 * a20
  let det := a00 * b01 + a01 * b11 + a02 * b21
  if det = 0 then none
  else
    let d := 1 / det
    -- out[0..8] in code order; Mat3 fields are row-major, so
    -- out[0], out[3], out[6] form the first row, etc.
    some ⟨b01 * d, b11 * d, b21 * d,
          (-a22 * a01 + a02 * a21) * d, (a22 * a00 - a02 * a20) * d,
          (-a21 * a00 + a01 * a20) * d,
          (a12 * a01 - a02 * a11) * d, (-a12 * a00 + a02 * a10) * d,
          (a11 * a00 - a01 * a10) * d⟩

/-! ## Helper lemmas -/

/-- Length of a `flatMap` over `List.range` whose blocks all have the
same length. -/
lemma length_flatMap_range {α : Type} (f : ℕ → List α) (c n : ℕ)
    (h : ∀ i, (f i).length = c) :
    ((List.range n).flatMap f).length = n * c := by
  induction n with
  | zero => simp
  | succ n ih =>
    rw [List.range_succ, List.flatMap_append, List.length_append, ih]
    simp [h, Nat.succ_mul]

/-- Closed form of the damping iteration: the offset from the target
shrinks geometrically with ratio `9/10`. -/
lemma dampIter_sub_target (target current : ℝ) (n : ℕ) :
    dampIter target current n - target = (9/10) ^ n * (current - target) := by
  induction n with
  | zero => simp [dampIter]
  | succ n ih =>
    have : dampIter target current (n + 1)
        = dampStep target (dampIter target current n) := rfl
    rw [this, dampStep, damping]
    rw [show dampIter target current n
        = (9/10) ^ n * (current - target) + target by linarith [ih]]
    ring

/-- The dot product of a vector with itself is nonnegative. -/
lemma v3dot_self_nonneg (v : Vec3) : 0 ≤ v3dot v v := by
  simp only [v3dot]
  nlinarith [sq_nonneg v.x, sq_nonneg v.y, sq_nonneg v.z]

/-- The dot product of a nonzero vector with itself is positive. -/
lemma v3dot_self_pos (v : Vec3) (h : v ≠ ⟨0, 0, 0⟩) : 0 < v3dot v v := by
  rcases lt_or_eq_of_le (v3dot_self_nonneg v) with hlt | heq
  · exact hlt
  · exfalso
    apply h
    have h0 : v.x * v.x + v.y * v.y + v.z * v.z = 0 := by
      simp only [v3dot] at heq
      linarith
    have hx : v.x = 0 := by nlinarith [sq_nonneg v.y, sq_nonneg v.z]
    have hy : v.y = 0 := by nlinarith [sq_nonneg v.x, sq_nonneg v.z]
    have hz : v.z = 0 := by nlinarith [sq_nonneg v.x, sq_nonneg v.y]
    ext <;> assumption

/-- Dot products are symmetric. -/
lemma v3dot_comm (a b : Vec3) : v3dot a b = v3dot b a := by
  simp only [v3dot]
  ring

/-- The cross product is perpendicular to its first factor. -/
lemma v3dot_cross_left (a b : Vec3) : v3dot (v3cross a b) a = 0 := by
  simp only [v3dot, v3cross]
  ring

/-- The cross product is perpendicular to its second factor. -/
lemma v3dot_cross_right (a b : Vec3) : v3dot (v3cross a b) b = 0 := by
  simp only [v3dot, v3cross]
  ring

/-- Lagrange's identity for the squared length of a cross product. -/
lemma v3dot_cross_self (a b : Vec3) :
    v3dot (v3cross a b) (v3cross a b)
      = v3dot a a * v3dot b b - (v3dot a b) ^ 2 := by
  simp only [v3dot, v3cross]
  ring

/-- Scaling the left factor scales the dot product. -/
lemma v3dot_smul_left (s : ℝ) (a b : Vec3) :
    v3dot ⟨a.x * s, a.y * s, a.z * s⟩ b = s * v3dot a b := by
  simp only [v3dot]
  ring

/-- Dividing a nonzero vector by the square root of its self-dot
product, as the `lookAt` code does, yields a unit vector. -/
lemma normalize_dot (v : Vec3) (h : v ≠ ⟨0, 0, 0⟩) :
    v3dot
      ⟨v.x * (1 / Real.sqrt (v3dot v v)), v.y * (1 / Real.sqrt (v3dot v v)),
        v.z * (1 / Real.sqrt (v3dot v v))⟩
      ⟨v.x * (1 / Real.sqrt (v3dot v v)), v.y * (1 / Real.sqrt (v3dot v v)),
        v.z * (1 / Real.sqrt (v3dot v v))⟩ = 1 := by
  have hd : 0 < v3dot v v := v3dot_self_pos v h
  have hs : 0 < Real.sqrt (v3dot v v) := Real.sqrt_pos.mpr hd
  have hsq : Real.sqrt (v3dot v v) * Real.sqrt (v3dot v v) = v3dot v v :=
    Real.mul_self_sqrt hd.le
  simp only [v3dot] at hsq hd ⊢
  field_simp

/-- The distance clamp always lands in `[3, 40]`. -/
lemma clampDistance_mem (d : ℝ) :
    3 ≤ clampDistance d ∧ clampDistance d ≤ 40 := by
  constructor
  · exact le_max_left 3 (min maxDistance d)
  · refine max_le (by norm_num [minDistance]) ?_
    exact le_trans (min_le_left maxDistance d) (by norm_num [maxDistance])

end WebGL3D

namespace WebGL3D

/-! ## Claim theorems -/

/-- C1: with a fixed target, the damping step
`current += (target - current) * 0.1` of `updateCamera` makes
`|current - target|` monotonically decrease, and it comes (and stays)
within any `ε > 0` of zero after a bounded number of steps. -/
theorem damping_converges (target current : ℝ) :
    (∀ n : ℕ, |dampIter target current (n + 1) - target|
      ≤ |dampIter target current n - target|) ∧
    (∀ ε : ℝ, 0 < ε → ∃ N : ℕ, ∀ n : ℕ, N ≤ n →
      |dampIter target current n - target| < ε) := by
  have key : ∀ n : ℕ, |dampIter target current n - target|
      = (9/10) ^ n * |current - target| := by
    intro n
    have h910 : |(9/10 : ℝ)| = 9/10 := abs_of_nonneg (by norm_num)
    rw [dampIter_sub_target, abs_mul, abs_pow, h910]
  constructor
  · intro n
    rw [key, key, pow_succ]
    have h1 : (0:ℝ) ≤ (9/10) ^ n * |current - target| := by positivity
    nlinarith [abs_nonneg (current - target), pow_nonneg (by norm_num : (0:ℝ) ≤ 9/10) n]
  · intro ε hε
    have hlt : (9/10 : ℝ) < 1 := by norm_num
    have hpos : 0 < ε / (|current - target| + 1) := by positivity
    obtain ⟨N, hN⟩ := exists_pow_lt_of_lt_one hpos hlt
    refine ⟨N, fun n hn => ?_⟩
    rw [key]
    have h1 : (9/10 : ℝ) ^ n ≤ (9/10) ^ N :=
      pow_le_pow_of_le_one (by norm_num) (by norm_num) hn
    have h2 : (0:ℝ) ≤ |current - target| := abs_nonneg _
    have h3 : |current - target| + 1 > 0 := by positivity
    have h4 : (9/10 : ℝ) ^ N * (|current - target| + 1) < ε := by
      rw [← lt_div_iff₀ h3]
      exact hN
    nlinarith [pow_nonneg (by norm_num : (0:ℝ) ≤ 9/10) n,
      pow_nonneg (by norm_num : (0:ℝ) ≤ 9/10) N]

/-- Witness for C1 at `target = 0`, `current = 1`, `ε = 1`. -/
theorem damping_converges_witness :
    |dampIter 0 1 1 - 0| ≤ |dampIter 0 1 0 - 0| ∧
    ∃ N : ℕ, ∀ n : ℕ, N ≤ n → |dampIter 0 1 n - 0| < 1 :=
  ⟨(damping_converges 0 1).1 0, (damping_converges 0 1).2 1 one_pos⟩

/-- C2 counterexample: at `deltaY = 0` the code multiplies the target
distance by `0.9` (its branch treats non-positive `deltaY` as scroll-up),
not by `1 + sign(0) * 0.1 = 1` as the claim's formula states: starting
from distance 12 the code yields 10.8, the claimed formula yields 12. -/
theorem wheel_sign_counterexample :
    wheelTargetUpdate 0 12 ≠ wheelTargetUpdateSpec 0 12 := by
  have h1 : wheelTargetUpdate 0 12 = 10.8 := by
    rw [wheelTargetUpdate, wheelDelta, clampDistance, minDistance, maxDistance]
    norm_num
  have h2 : wheelTargetUpdateSpec 0 12 = 12 := by
    rw [wheelTargetUpdateSpec, Real.sign_zero, clampDistance, minDistance,
      maxDistance]
    norm_num
  rw [h1, h2]
  norm_num

/-- C2 amended: the wheel handler multiplies the prior target distance by
`1 + δ * 0.1` where `δ = 1` when `deltaY > 0` and `δ = -1` otherwise
(`deltaY = 0` included), then clamps, and the result always lies within
`[minDistance, maxDistance] = [3, 40]`. -/
theorem wheel_clamps (deltaY d : ℝ) :
    wheelTargetUpdate deltaY d
      = clampDistance (d * (1 + (if deltaY > 0 then 1 else -1) * (1/10))) ∧
    3 ≤ wheelTargetUpdate deltaY d ∧ wheelTargetUpdate deltaY d ≤ 40 := by
  refine ⟨rfl, ?_, ?_⟩
  · exact (clampDistance_mem _).1
  · exact (clampDistance_mem _).2

/-- C7 counterexample: the color tables do not use inclusive lower
bounds.  At `teff = 6000` the code returns `(1, 1, 0.7)` while the
inclusive-lower-bound reading of the spec's star table returns
`(1, 1, 1)`. -/
theorem starColor_inclusive_counterexample :
    getStarColor 6000 ≠ stepLookupIncl starTable starDefault 6000 := by
  norm_num [getStarColor, stepLookupIncl, starTable, starDefault]

/-- C7 amended: `getStarColor` and `getPlanetColor` implement the spec's
step tables with exact thresholds, first match wins in descending order,
and STRICT (exclusive) lower bounds; the five spec evaluations hold:
`starColor(6500)=(1,1,1)`, `starColor(4500)=(1,0.6,0.3)`,
`starColor(2500)=(0.8,0.2,0.2)`, `planetColor(1200)=(1,0.4,0.4)`,
`planetColor(250)=(0.6,0.6,1.0)`. -/
theorem color_step_tables :
    (∀ t : ℚ, getStarColor t = stepLookupStrict starTable starDefault t) ∧
    (∀ t : ℚ, getPlanetColor t = stepLookupStrict planetTable planetDefault t) ∧
    getStarColor 6500 = (1, 1, 1) ∧
    getStarColor 4500 = (1, 0.6, 0.3) ∧
    getStarColor 2500 = (0.8, 0.2, 0.2) ∧
    getPlanetColor 1200 = (1, 0.4, 0.4) ∧
    getPlanetColor 250 = (0.6, 0.6, 1.0) := by
  refine ⟨fun t => ?_, fun t => ?_,
    by norm_num [getStarColor], by norm_num [getStarColor],
    by norm_num [getStarColor], by norm_num [getPlanetColor],
    by norm_num [getPlanetColor]⟩
  · simp only [getStarColor, stepLookupStrict, starTable, starDefault]
  · simp only [getPlanetColor, stepLookupStrict, planetTable, planetDefault]

/-- C8: after any sequence of interactions from the initial camera state
(drags, wheel zooms, double-clicks, frames — in particular after a manual
drag disabled auto-rotation), a double-click sets `autoRotate := true`
and resets target distance, azimuth, and elevation to 12, 0, and 0.3. -/
theorem dblclick_resets (es : List CamEvt) :
    (dblclickEvt (applyEvts es initCamera)).autoRotate = true ∧
    (dblclickEvt (applyEvts es initCamera)).targetDistance = 12 ∧
    (dblclickEvt (applyEvts es initCamera)).targetAzimuth = 0 ∧
    (dblclickEvt (applyEvts es initCamera)).targetElevation = 0.3 :=
  ⟨rfl, rfl, rfl, rfl⟩

/-- The distance part of the camera invariant: both the damped current
distance and the target distance stay within `[3, 40]`. -/
def DistInv (s : CameraState) : Prop :=
  3 ≤ s.distance ∧ s.distance ≤ 40 ∧
  3 ≤ s.targetDistance ∧ s.targetDistance ≤ 40

/-- Every event preserves the distance invariant. -/
lemma applyEvt_distInv (e : CamEvt) (s : CameraState) (h : DistInv s) :
    DistInv (applyEvt e s) := by
  obtain ⟨h1, h2, h3, h4⟩ := h
  cases e with
  | mousedown => exact ⟨h1, h2, h3, h4⟩
  | mousemove dx dy => exact ⟨h1, h2, h3, h4⟩
  | wheel deltaY =>
    exact ⟨h1, h2, (clampDistance_mem _).1, (clampDistance_mem _).2⟩
  | dblclick =>
    exact ⟨h1, h2, by norm_num [applyEvt, dblclickEvt],
      by norm_num [applyEvt, dblclickEvt]⟩
  | frame t =>
    have hd : 3 ≤ dampStep s.targetDistance s.distance ∧
        dampStep s.targetDistance s.distance ≤ 40 := by
      rw [dampStep, damping]
      constructor <;> nlinarith
    simp only [applyEvt, frameEvt]
    by_cases hr : s.autoRotate <;>
      simp only [hr, if_true, if_false, Bool.false_eq_true] <;>
      exact ⟨hd.1, hd.2, h3, h4⟩

/-- The invariant holds along any event sequence. -/
lemma applyEvts_distInv (es : List CamEvt) (s : CameraState) (h : DistInv s) :
    DistInv (applyEvts es s) := by
  induction es generalizing s with
  | nil => exact h
  | cons e rest ih => exact ih (applyEvt e s) (applyEvt_distInv e s h)

/-- C10: in every state reachable from the initial camera state by any
interleaving of per-frame damping updates, wheel events, drags and
double-clicks, both the current and the target camera distance lie in
`[minDistance, maxDistance] = [3, 40]`. -/
theorem distance_invariant (es : List CamEvt) :
    3 ≤ (applyEvts es initCamera).distance ∧
    (applyEvts es initCamera).distance ≤ 40 ∧
    3 ≤ (applyEvts es initCamera).targetDistance ∧
    (applyEvts es initCamera).targetDistance ≤ 40 :=
  applyEvts_distInv es initCamera (by norm_num [DistInv, initCamera])

/-- C3: the orbital angle is `elapsedTime * orbitSpeed / period`, the
guarded period is never zero (zero or absent periods become 1), and at
`elapsedTime = 0` the planet sits at `(orbitRadius, 0, 0)` whatever the
period. -/
theorem planet_orbit (t : ℝ) (p a : Option ℝ) :
    orbitAngle t p = t * orbitSpeed / orDefault p 1 ∧
    orDefault p 1 ≠ 0 ∧
    ((p = none ∨ p = some 0) → orDefault p 1 = 1) ∧
    planetPosition 0 p a = (orbitRadius a, 0, 0) := by
  refine ⟨rfl, ?_, ?_, ?_⟩
  · cases p with
    | none => norm_num [orDefault]
    | some x =>
      by_cases hx : x = 0 <;> simp [orDefault, hx]
  · rintro (rfl | rfl) <;> simp [orDefault]
  · have h0 : orbitAngle 0 p = 0 := by
      simp [orbitAngle]
    simp [planetPosition, h0]

/-- Witness for C3 at `t = 5`, `period = some 0`, `aOverRstar = some 20`. -/
theorem planet_orbit_witness :
    orDefault (some 0) 1 = 1 ∧
    planetPosition 0 (some 0) (some 20) = (orbitRadius (some 20), 0, 0) :=
  ⟨(planet_orbit 5 (some 0) (some 20)).2.2.1 (Or.inr rfl),
   (planet_orbit 5 (some 0) (some 20)).2.2.2⟩

/-- C6: for all segment and ring counts, `createSphere` emits
`(rings+1)*(segments+1)` vertices and `6*rings*segments` triangle
indices, every emitted index addresses an existing vertex, and at
`segments = 4, rings = 2` this gives 15 vertices and 48 indices. -/
theorem createSphere_counts (radius : ℝ) (segments rings : ℕ) :
    (sphereVertices radius segments rings).length
      = (rings + 1) * (segments + 1) ∧
    (sphereIndices segments rings).length = 6 * rings * segments ∧
    (∀ k ∈ sphereIndices segments rings, k < (rings + 1) * (segments + 1)) ∧
    (sphereVertices radius 4 2).length = 15 ∧
    (sphereIndices 4 2).length = 48 := by
  have hvert : ∀ (rad : ℝ) (s r : ℕ),
      (sphereVertices rad s r).length = (r + 1) * (s + 1) := by
    intro rad s r
    rw [sphereVertices, length_flatMap_range _ (s + 1) (r + 1)]
    intro i
    rw [List.length_map, List.length_range]
  have hidx : ∀ s r : ℕ, (sphereIndices s r).length = 6 * r * s := by
    intro s r
    rw [sphereIndices]
    rw [length_flatMap_range _ (s * 6) r]
    · ring
    · intro i
      rw [length_flatMap_range _ 6 s]
      intro j
      rfl
  refine ⟨hvert radius segments rings, hidx segments rings, ?_,
    hvert radius 4 2, hidx 4 2⟩
  intro k hk
  simp only [sphereIndices, List.mem_flatMap, List.mem_range] at hk
  obtain ⟨i, hi, j, hj, hk⟩ := hk
  have hmul : (i + 1) * (segments + 1) ≤ rings * (segments + 1) :=
    Nat.mul_le_mul_right _ hi
  simp only [List.mem_cons, List.not_mem_nil, or_false] at hk
  rcases hk with rfl | rfl | rfl | rfl | rfl | rfl <;> nlinarith

/-- Witness for C6: index 11 of the `segments = 4, rings = 2` sphere is
in range. -/
theorem createSphere_counts_witness :
    (11 : ℕ) ∈ sphereIndices 4 2 ∧ 11 < (2 + 1) * (4 + 1) :=
  ⟨by decide, (createSphere_counts 1 4 2).2.2.1 11 (by decide)⟩

/-- C4: for all `fovY, aspect > 0`, `near > 0`, `far > near`, the
perspective matrix maps the view-axis point at depth `near` (view-space
`z = -near`) to normalized clip depth `-1` and the point at depth `far`
to `+1` after perspective division. -/
theorem perspective_depth (fovy aspect near far : ℝ)
    (hfov : 0 < fovy) (hasp : 0 < aspect) (hnear : 0 < near)
    (hfar : near < far) :
    (mat4Apply (mat4Perspective fovy aspect near far) ⟨0, 0, -near, 1⟩).z
      / (mat4Apply (mat4Perspective fovy aspect near far) ⟨0, 0, -near, 1⟩).w
      = -1 ∧
    (mat4Apply (mat4Perspective fovy aspect near far) ⟨0, 0, -far, 1⟩).z
      / (mat4Apply (mat4Perspective fovy aspect near far) ⟨0, 0, -far, 1⟩).w
      = 1 := by
  have h1 : near - far ≠ 0 := by linarith
  have h2 : near ≠ 0 := ne_of_gt hnear
  have h3 : far ≠ 0 := by linarith
  constructor <;>
    · simp only [mat4Perspective, mat4Apply]
      field_simp
      ring

/-- Witness for C4 at `fovy = 1`, `aspect = 1`, `near = 1`, `far = 2`. -/
theorem perspective_depth_witness :
    (mat4Apply (mat4Perspective 1 1 1 2) ⟨0, 0, -1, 1⟩).z
      / (mat4Apply (mat4Perspective 1 1 1 2) ⟨0, 0, -1, 1⟩).w = -1 ∧
    (mat4Apply (mat4Perspective 1 1 1 2) ⟨0, 0, -2, 1⟩).z
      / (mat4Apply (mat4Perspective 1 1 1 2) ⟨0, 0, -2, 1⟩).w = 1 :=
  perspective_depth 1 1 1 2 (by norm_num) (by norm_num) (by norm_num)
    (by norm_num)

/-- C5: when the eye differs from the look-at target and `up` is not
parallel to the eye-to-target direction, the three basis row vectors
built by `mat4.lookAt` are unit length (`sqrt` of each self-dot product
is 1) and mutually perpendicular (pairwise dot products vanish). -/
theorem lookAt_orthonormal (eye center up : Vec3) (he : eye ≠ center)
    (hup : v3cross up (lookAtZ eye center) ≠ ⟨0, 0, 0⟩) :
    Real.sqrt (v3dot (lookAtX eye center up) (lookAtX eye center up)) = 1 ∧
    Real.sqrt (v3dot (lookAtY eye center up) (lookAtY eye center up)) = 1 ∧
    Real.sqrt (v3dot (lookAtZ eye center) (lookAtZ eye center)) = 1 ∧
    v3dot (lookAtX eye center up) (lookAtZ eye center) = 0 ∧
    v3dot (lookAtY eye center up) (lookAtZ eye center) = 0 ∧
    v3dot (lookAtX eye center up) (lookAtY eye center up) = 0 := by
  have hdne : v3sub eye center ≠ ⟨0, 0, 0⟩ := by
    intro hc
    apply he
    have hx := congrArg Vec3.x hc
    have hy := congrArg Vec3.y hc
    have hz := congrArg Vec3.z hc
    simp only [v3sub] at hx hy hz
    ext <;> linarith
  have hzz : v3dot (lookAtZ eye center) (lookAtZ eye center) = 1 :=
    normalize_dot (v3sub eye center) hdne
  have hcc : 0 < v3dot (v3cross up (lookAtZ eye center))
      (v3cross up (lookAtZ eye center)) := v3dot_self_pos _ hup
  have hlen : Real.sqrt (v3dot (v3cross up (lookAtZ eye center))
      (v3cross up (lookAtZ eye center))) ≠ 0 :=
    (Real.sqrt_pos.mpr hcc).ne'
  have hxdef : lookAtX eye center up =
      ⟨(v3cross up (lookAtZ eye center)).x
          * (1 / Real.sqrt (v3dot (v3cross up (lookAtZ eye center))
              (v3cross up (lookAtZ eye center)))),
        (v3cross up (lookAtZ eye center)).y
          * (1 / Real.sqrt (v3dot (v3cross up (lookAtZ eye center))
              (v3cross up (lookAtZ eye center)))),
        (v3cross up (lookAtZ eye center)).z
          * (1 / Real.sqrt (v3dot (v3cross up (lookAtZ eye center))
              (v3cross up (lookAtZ eye center))))⟩ := by
    simp only [lookAtX]
    rw [if_neg hlen]
  have hxx : v3dot (lookAtX eye center up) (lookAtX eye center up) = 1 := by
    rw [hxdef]
    exact normalize_dot _ hup
  have hxz : v3dot (lookAtX eye center up) (lookAtZ eye center) = 0 := by
    rw [hxdef, v3dot_smul_left, v3dot_cross_right up (lookAtZ eye center)]
    ring
  have hydef : lookAtY eye center up
      = v3cross (lookAtZ eye center) (lookAtX eye center up) := rfl
  have hyz : v3dot (lookAtY eye center up) (lookAtZ eye center) = 0 := by
    rw [hydef]
    exact v3dot_cross_left _ _
  have hxy : v3dot (lookAtX eye center up) (lookAtY eye center up) = 0 := by
    rw [hydef, v3dot_comm]
    exact v3dot_cross_right _ _
  have hzx : v3dot (lookAtZ eye center) (lookAtX eye center up) = 0 := by
    rw [v3dot_comm]
    exact hxz
  have hyy : v3dot (lookAtY eye center up) (lookAtY eye center up) = 1 := by
    rw [hydef, v3dot_cross_self, hzz, hxx, hzx]
    norm_num
  exact ⟨by rw [hxx, Real.sqrt_one], by rw [hyy, Real.sqrt_one],
    by rw [hzz, Real.sqrt_one], hxz, hyz, hxy⟩

/-- Witness for C5 at `eye = (0,0,1)`, `center = (0,0,0)`,
`up = (0,1,0)`. -/
theorem lookAt_orthonormal_witness :
    Real.sqrt (v3dot (lookAtX ⟨0, 0, 1⟩ ⟨0, 0, 0⟩ ⟨0, 1, 0⟩)
        (lookAtX ⟨0, 0, 1⟩ ⟨0, 0, 0⟩ ⟨0, 1, 0⟩)) = 1 ∧
    Real.sqrt (v3dot (lookAtY ⟨0, 0, 1⟩ ⟨0, 0, 0⟩ ⟨0, 1, 0⟩)
        (lookAtY ⟨0, 0, 1⟩ ⟨0, 0, 0⟩ ⟨0, 1, 0⟩)) = 1 ∧
    Real.sqrt (v3dot (lookAtZ ⟨0, 0, 1⟩ ⟨0, 0, 0⟩)
        (lookAtZ ⟨0, 0, 1⟩ ⟨0, 0, 0⟩)) = 1 ∧
    v3dot (lookAtX ⟨0, 0, 1⟩ ⟨0, 0, 0⟩ ⟨0, 1, 0⟩)
        (lookAtZ ⟨0, 0, 1⟩ ⟨0, 0, 0⟩) = 0 ∧
    v3dot (lookAtY ⟨0, 0, 1⟩ ⟨0, 0, 0⟩ ⟨0, 1, 0⟩)
        (lookAtZ ⟨0, 0, 1⟩ ⟨0, 0, 0⟩) = 0 ∧
    v3dot (lookAtX ⟨0, 0, 1⟩ ⟨0, 0, 0⟩ ⟨0, 1, 0⟩)
        (lookAtY ⟨0, 0, 1⟩ ⟨0, 0, 0⟩ ⟨0, 1, 0⟩) = 0 := by
  have hz : lookAtZ ⟨0, 0, 1⟩ ⟨0, 0, 0⟩ = ⟨0, 0, 1⟩ := by
    simp only [lookAtZ, v3sub, v3dot]
    norm_num
  refine lookAt_orthonormal ⟨0, 0, 1⟩ ⟨0, 0, 0⟩ ⟨0, 1, 0⟩ ?_ ?_
  · intro h
    have := congrArg Vec3.z h
    norm_num at this
  · rw [hz]
    intro h
    have := congrArg Vec3.x h
    simp only [v3cross] at this
    norm_num at this

/-- C9 counterexample: on the column-major shear matrix with upper-left
3×3 block `M = [[1,1,0],[0,1,0],[0,0,1]]` the code returns
`N = [[1,-1,0],[0,1,0],[0,0,1]] = M⁻¹`, whose transpose times `M` is not
the identity — so the returned matrix is the plain inverse, not the
inverse-transpose the claim states. -/
theorem normalFromMat4_not_transpose :
    normalFromMat4 ⟨1, 0, 0, 0, 1, 1, 0, 0, 0, 0, 1, 0, 0, 0, 0, 1⟩
      = some ⟨1, -1, 0, 0, 1, 0, 0, 0, 1⟩ ∧
    mat3Mul (mat3Transpose ⟨1, -1, 0, 0, 1, 0, 0, 0, 1⟩)
        (upperLeft3 ⟨1, 0, 0, 0, 1, 1, 0, 0, 0, 0, 1, 0, 0, 0, 0, 1⟩)
      ≠ mat3Identity := by
  constructor
  · simp only [normalFromMat4]
    norm_num
  · intro h
    have := congrArg Mat3.e01 h
    simp only [mat3Mul, mat3Transpose, upperLeft3, mat3Identity] at this
    norm_num at this

/-- C9 amended: `normalFromMat4` returns the `null` sentinel (no write
to the output) exactly when the determinant of the upper-left 3×3 block
is zero, and for every input with nonzero determinant it writes and
returns the INVERSE of that block (not its inverse-transpose). -/
theorem normalFromMat4_inverse (m : Mat4) :
    (normalFromMat4 m = none ↔ mat3Det (upperLeft3 m) = 0) ∧
    ∀ N : Mat3, normalFromMat4 m = some N →
      mat3Mul N (upperLeft3 m) = mat3Identity ∧
      mat3Mul (upperLeft3 m) N = mat3Identity := by
  have hdet : m.m0 * (m.m10 * m.m5 - m.m6 * m.m9)
      + m.m1 * (-m.m10 * m.m4 + m.m6 * m.m8)
      + m.m2 * (m.m9 * m.m4 - m.m5 * m.m8) = mat3Det (upperLeft3 m) := by
    simp only [mat3Det, upperLeft3]
    ring
  constructor
  · simp only [normalFromMat4]
    split_ifs with h
    · constructor
      · intro _
        rw [← hdet]
        exact h
      · intro _
        rfl
    · constructor
      · intro hc
        exact absurd hc (by simp)
      · intro hc
        exfalso
        apply h
        rw [hdet]
        exact hc
  · intro N hN
    simp only [normalFromMat4] at hN
    split_ifs at hN with h
    have hd : mat3Det (upperLeft3 m) ≠ 0 := by
      rw [← hdet]
      exact h
    injection hN with hN
    subst hN
    have hk : (m.m0 * (m.m10 * m.m5 - m.m6 * m.m9)
          + m.m1 * (-m.m10 * m.m4 + m.m6 * m.m8)
          + m.m2 * (m.m9 * m.m4 - m.m5 * m.m8))
        * (1 / (m.m0 * (m.m10 * m.m5 - m.m6 * m.m9)
          + m.m1 * (-m.m10 * m.m4 + m.m6 * m.m8)
          + m.m2 * (m.m9 * m.m4 - m.m5 * m.m8))) = 1 := by
      rw [mul_one_div]
      exact div_self h
    constructor <;>
      · ext <;>
          · simp only [mat3Mul, upperLeft3, mat3Identity]
            first
            | linear_combination hk
            | ring

/-- Witness for C9 at the identity model matrix. -/
theorem normalFromMat4_inverse_witness :
    mat3Mul ⟨1, 0, 0, 0, 1, 0, 0, 0, 1⟩ (upperLeft3 mat4Identity)
      = mat3Identity ∧
    mat3Mul (upperLeft3 mat4Identity) ⟨1, 0, 0, 0, 1, 0, 0, 0, 1⟩
      = mat3Identity :=
  (normalFromMat4_inverse mat4Identity).2 ⟨1, 0, 0, 0, 1, 0, 0, 0, 1⟩ (by
    simp only [normalFromMat4, mat4Identity]
    norm_num)

end WebGL3D
